import Mathlib

/-!
Shallow embedding of the matcher components of `src/dsl/scanners.go`
(package `dsl` of whitten/goflow) and verification of the frozen claims.

Modelling conventions:
* A byte of the source buffer is a `Nat`; strings of the Go program
  (buffer contents, configuration strings, captured values) are `List Nat`.
  Character-level operations mirror Go on ASCII bytes (0..127): Go's
  `strings.ToUpper`, `strings.ContainsRune` and the RE2 classes `\w`, `\s`
  act byte-wise there, which is where all matcher decisions live.
* A Go index/slice operation that can panic is embedded through `Option`:
  `none` is a runtime panic, `some r` a normal result.
* The one-time configuration reads from the `Set` and `Type` channels are
  embedded as `Option` arguments of the `...Process` functions (`none` =
  channel closed before a value arrived); the unbounded token loop is a
  traversal of the list of incoming tokens, each producing one emission
  `(isHit, token)` on exactly one of the `Hit` / `Miss` ports.
* Go's `regexp.Compile` (used by `ScanChars` for a bracket-delimited class)
  is not re-implemented: it enters as an explicit function parameter
  `compile : List Nat → Option (Nat → Bool)`, `none` meaning the class
  failed to compile — exactly the branch structure of `ScanChars.matcher`.
-/

namespace GoFlow

/-- Modelled from the spec: the `Token` record of the repository's data model
(its defining file is not under `src/`, only `scanners.go` uses it): a
read-only reference to the source buffer (`tok.File.Data`), an integer
position, a mutable string value and a string token-type tag (§3 of the
spec). `TokenType` is a string type, embedded as `String`. -/
structure Token where
  file : List Nat
  pos : Nat
  value : List Nat
  type : String
deriving DecidableEq, Repr

/-- Outcome of one matcher on one token: the token sent to `Hit`, or the
token sent to `Miss`. -/
inductive MatchResult where
  | hit : Token → MatchResult
  | miss : Token → MatchResult
deriving DecidableEq, Repr

/-- Did the result go to the `Hit` port? -/
def MatchResult.hitQ : MatchResult → Bool
  | .hit _ => true
  | .miss _ => false

/-- The token carried by the result, whichever port it went to. -/
def MatchResult.token : MatchResult → Token
  | .hit t => t
  | .miss t => t

/-- The buffer-independent observables of a result: which port it went to and
the emitted token's position, value and type. -/
def obs (r : MatchResult) : Bool × Nat × List Nat × String :=
  (r.hitQ, r.token.pos, r.token.value, r.token.type)

/-- One emission of the streaming loop: `(went to Hit?, token)`. -/
def emitOf (r : MatchResult) : Bool × Token := (r.hitQ, r.token)

/-- RE2 class `[\w_]` of `ScanKeyword`: ASCII letter, digit or underscore
(the extra `_` in the class is redundant). -/
def isWordChar (c : Nat) : Bool :=
  (48 ≤ c && c ≤ 57) || (65 ≤ c && c ≤ 90) || (97 ≤ c && c ≤ 122) || c == 95

/-- RE2 class `\s`: tab, line feed, form feed, carriage return, space. -/
def isSpaceChar (c : Nat) : Bool :=
  c == 9 || c == 10 || c == 12 || c == 13 || c == 32

/-- `strings.ToUpper` on one byte (exact for bytes 0..127). -/
def goToUpper (c : Nat) : Nat := if 97 ≤ c && c ≤ 122 then c - 32 else c

/-- `strings.ToUpper` on a byte string. -/
def upperList (l : List Nat) : List Nat := l.map goToUpper

/-! ### ScanChars -/

/-- `strings.ReplaceAll s [a,b] [r]`: replace every (left-to-right,
non-overlapping) occurrence of the two-byte pattern `a b` by the single
byte `r`; used for the `\t`, `\r`, `\n` escape expansions. -/
def replaceEsc (a b r : Nat) : List Nat → List Nat
  | [] => []
  | [x] => [x]
  | x :: y :: rest =>
    if x == a && y == b then r :: replaceEsc a b r rest
    else x :: replaceEsc a b r (y :: rest)

/-- The escape expansion of `ScanChars.matcher`: `\t`, then `\r`, then `\n`
(92/116/114/110 are the bytes of backslash, t, r, n). -/
def expandSet (set : List Nat) : List Nat :=
  replaceEsc 92 110 10 (replaceEsc 92 114 13 (replaceEsc 92 116 9 set))

/-- The scanning loop of `ScanChars.Process`, run on `Data` from the token's
position (`for i := tok.Pos; i < dataLen; i++ { ... }`): accumulate bytes
while they are nonzero and accepted by the matcher predicate. -/
def charsRun (m : Nat → Bool) : List Nat → List Nat
  | [] => []
  | c :: rest => if c == 0 || !(m c) then [] else c :: charsRun m rest

/-- The per-token body of `ScanChars.Process`, with the matcher predicate
already built: set `Value` to the accumulated run; on a non-empty run set
`Type` and emit `Hit`, otherwise emit `Miss`. -/
def scanCharsTok (m : Nat → Bool) (ty : String) (tok : Token) : MatchResult :=
  let run := charsRun m (tok.file.drop tok.pos)
  if run.length > 0 then .hit { tok with value := run, type := ty }
  else .miss { tok with value := run }

/-- `ScanChars.matcher`: `none` is the index-out-of-range panic of `set[0]`
on an empty configuration; a bracket-delimited set compiles as a regexp
class (`compile`), degrading to the always-false predicate on compile
failure; any other set is expanded and matched by containment. -/
def scanCharsMatcher (compile : List Nat → Option (Nat → Bool)) :
    List Nat → Option (Nat → Bool)
  | [] => none
  | set@(c :: _) =>
    if c == 91 && set.getLastD 0 == 93 then
      some (match compile set with
        | some reg => reg
        | none => fun _ => false)
    else
      some (fun r => (expandSet set).contains r)

/-- One token through `ScanChars.Process` with configuration `set`:
builds the matcher (possibly panicking) and runs the loop body. -/
def scanCharsProcessTok (compile : List Nat → Option (Nat → Bool))
    (set : List Nat) (ty : String) (tok : Token) : Option MatchResult :=
  (scanCharsMatcher compile set).map (fun m => scanCharsTok m ty tok)

/-- Whole `ScanChars.Process`: read `Set` (return on closed channel), build
the matcher, read `Type` (return on closed channel), then stream the
incoming tokens. -/
def scanCharsProcess (compile : List Nat → Option (Nat → Bool))
    (setO : Option (List Nat)) (tyO : Option String) (ins : List Token) :
    Option (List (Bool × Token)) :=
  match setO with
  | none => some []
  | some set =>
    match scanCharsMatcher compile set with
    | none => none
    | some m =>
      match tyO with
      | none => some []
      | some ty => some (ins.map (fun tok => emitOf (scanCharsTok m ty tok)))

/-! ### ScanKeyword -/

/-- `identReg.MatchString(word)` for `identReg = [\w_]`: the regexp matches
somewhere in the string, i.e. some byte is a word character. -/
def keywordIsIdent (word : List Nat) : Bool := word.any isWordChar

/-- The `shouldNotBeFollowedBy` predicate chosen by `ScanKeyword.Process`:
`[\w_]` when the (upper-cased) keyword is classified as an identifier,
`[^\w\s]` otherwise. -/
def keywordFollow (word : List Nat) : Nat → Bool :=
  if keywordIsIdent word then isWordChar
  else fun c => !(isWordChar c) && !(isSpaceChar c)

/-- The per-token body of `ScanKeyword.Process`, with `word` the upper-cased
keyword and `follow` the boundary predicate: Miss when fewer than
`word.length` bytes remain; otherwise extract that many bytes into `Value`,
compare upper-cased, check the byte that follows (when one exists) against
`follow`, and emit `Hit` (with `Value` the canonical upper-cased keyword and
`Type` set) or `Miss`. The buffer index of the following byte is embedded
fallibly (`none` = panic); the slice `Data[pos:pos+len]` is guarded by the
length test exactly as in the source. -/
def scanKeywordTok (word : List Nat) (follow : Nat → Bool) (ty : String)
    (tok : Token) : Option MatchResult :=
  if tok.pos + word.length > tok.file.length then some (.miss tok)
  else
    let v := (tok.file.drop tok.pos).take word.length
    if upperList v == word then
      if tok.pos + word.length < tok.file.length then
        match tok.file.get? (tok.pos + word.length) with
        | none => none
        | some nextChar =>
          if follow nextChar then some (.miss { tok with value := v })
          else some (.hit { tok with value := word, type := ty })
      else some (.hit { tok with value := word, type := ty })
    else some (.miss { tok with value := v })

/-- One token through `ScanKeyword.Process` with raw configuration `set`:
upper-case the keyword once, classify it, then run the body. -/
def scanKeywordProcessTok (set : List Nat) (ty : String) (tok : Token) :
    Option MatchResult :=
  scanKeywordTok (upperList set) (keywordFollow (upperList set)) ty tok

/-- Whole `ScanKeyword.Process`: configuration reads, then the stream. -/
def scanKeywordProcess (setO : Option (List Nat)) (tyO : Option String)
    (ins : List Token) : Option (List (Bool × Token)) :=
  match setO with
  | none => some []
  | some set =>
    match tyO with
    | none => some []
    | some ty =>
      ins.mapM (fun tok => (scanKeywordProcessTok set ty tok).map emitOf)

/-! ### ScanComment -/

/-- The scanning loop of `ScanComment.Process`: accumulate bytes until the
zero sentinel, a line feed (10) or a carriage return (13). -/
def commentRun : List Nat → List Nat
  | [] => []
  | c :: rest => if c == 0 || c == 10 || c == 13 then [] else c :: commentRun rest

/-- The per-token body of `ScanComment.Process`: compare `Data[tok.Pos]`
with `prefix[0]` (each embedded fallibly — `tok.Pos` is not bounds-checked
and the prefix is not checked for emptiness in the source); on mismatch
emit `Miss` with the token untouched, otherwise capture up to end of line
and emit `Hit`. -/
def scanCommentTok (pfx : List Nat) (ty : String) (tok : Token) :
    Option MatchResult :=
  match tok.file.get? tok.pos with
  | none => none
  | some b =>
    match pfx with
    | [] => none
    | p0 :: _ =>
      if b != p0 then some (.miss tok)
      else some (.hit { tok with
        value := commentRun (tok.file.drop tok.pos), type := ty })

/-- Whole `ScanComment.Process`: configuration reads, then the stream. -/
def scanCommentProcess (setO : Option (List Nat)) (tyO : Option String)
    (ins : List Token) : Option (List (Bool × Token)) :=
  match setO with
  | none => some []
  | some pfx =>
    match tyO with
    | none => some []
    | some ty =>
      ins.mapM (fun tok => (scanCommentTok pfx ty tok).map emitOf)

/-! ### Definitions following the spec's words (for refutation only) -/

/-- Follows the spec's words (§4.3): the keyword is word-like when it
"consists solely of word characters". -/
def specWordLike (word : List Nat) : Bool := word.all isWordChar

/-- Follows the claim's words: the boundary byte is acceptable when, for a
word-like keyword, it is not a word character, and for an operator-like
keyword, it is not a non-word, non-space character. -/
def specFollowOk (wordLike : Bool) (c : Nat) : Bool :=
  if wordLike then !(isWordChar c) else !(!(isWordChar c) && !(isSpaceChar c))

/-- Follows claim C1's words, with the spec's classification: the keyword
matcher hits exactly when enough bytes remain, they case-insensitively
equal the keyword, and the following byte (when one exists) passes the
boundary rule. -/
def specKeywordHit (K B : List Nat) (p : Nat) : Bool :=
  if p + K.length ≤ B.length then
    upperList ((B.drop p).take K.length) == upperList K
    && (match B.get? (p + K.length) with
        | none => true
        | some c => specFollowOk (specWordLike K) c)
  else false

/-- Follows claim C2's words: the maximal prefix of `B[p:]` consisting only
of characters of the set `S`. -/
def specMaxRun (S B : List Nat) (p : Nat) : List Nat :=
  (B.drop p).takeWhile (fun c => S.contains c)

/-- The boundary test actually performed by the code, phrased as in the
claim but with the code's classification `wordLike` passed in: the byte
following the keyword, when it exists, must pass `specFollowOk`. -/
def boundaryOkB (wordLike : Bool) (B : List Nat) (j : Nat) : Bool :=
  match B.get? j with
  | none => true
  | some c => specFollowOk wordLike c

/-! ### Helper lemmas -/

theorem charsRun_false (l : List Nat) : charsRun (fun _ => false) l = [] := by
  cases l <;> simp [charsRun]

theorem charsRun_eq_takeWhile (m : Nat → Bool) (l : List Nat) :
    charsRun m l = l.takeWhile (fun c => !(c == 0) && m c) := by
  induction l with
  | nil => rfl
  | cons c rest ih =>
    simp only [charsRun, List.takeWhile]
    cases hc : (c == 0) <;> cases hm : m c <;> simp [hc, hm, ih]

theorem commentRun_eq_takeWhile (l : List Nat) :
    commentRun l = l.takeWhile (fun c => !(c == 0) && !(c == 10) && !(c == 13)) := by
  induction l with
  | nil => rfl
  | cons c rest ih =>
    simp only [commentRun, List.takeWhile]
    cases h0 : (c == 0) <;> cases h10 : (c == 10) <;> cases h13 : (c == 13) <;>
      simp [h0, h10, h13, ih]

theorem charsRun_zero_ext (m : Nat → Bool) (xs b₁ b₂ : List Nat) :
    charsRun m (xs ++ 0 :: b₁) = charsRun m (xs ++ 0 :: b₂) := by
  induction xs with
  | nil => simp [charsRun]
  | cons c rest ih => simp only [List.cons_append, charsRun, List.append_eq, ih]

theorem commentRun_zero_ext (xs b₁ b₂ : List Nat) :
    commentRun (xs ++ 0 :: b₁) = commentRun (xs ++ 0 :: b₂) := by
  induction xs with
  | nil => simp [commentRun]
  | cons c rest ih => simp only [List.cons_append, commentRun, List.append_eq, ih]

theorem isWordChar_goToUpper (c : Nat) : isWordChar (goToUpper c) = isWordChar c := by
  unfold goToUpper isWordChar
  split
  · rename_i h
    rw [Bool.eq_iff_iff]
    simp only [Bool.and_eq_true, Bool.or_eq_true, decide_eq_true_eq, beq_iff_eq,
      Bool.and_eq_true] at h ⊢
    omega
  · rfl

theorem any_upperList (l : List Nat) :
    (upperList l).any isWordChar = l.any isWordChar := by
  have h : isWordChar ∘ goToUpper = isWordChar := funext isWordChar_goToUpper
  simp [upperList, List.any_map, h]

theorem upperList_length (l : List Nat) : (upperList l).length = l.length := by
  simp [upperList]

theorem keywordFollow_eq (K : List Nat) (c : Nat) :
    keywordFollow (upperList K) c = !(specFollowOk (keywordIsIdent K) c) := by
  unfold keywordFollow specFollowOk keywordIsIdent
  rw [any_upperList K]
  split <;> rename_i h <;> simp [h]

theorem get?_append_zero_ext (a b₁ b₂ : List Nat) (p : Nat) (hp : p ≤ a.length) :
    (a ++ 0 :: b₁).get? p = (a ++ 0 :: b₂).get? p := by
  rcases Nat.lt_or_ge p a.length with h | h
  · rw [List.get?_append h, List.get?_append h]
  · have hpa : p = a.length := Nat.le_antisymm hp h
    subst hpa
    rw [List.get?_append_right (Nat.le_refl _), List.get?_append_right (Nat.le_refl _)]
    simp

theorem scanCommentTok_head (p0 : Nat) (rest : List Nat) (ty : String) (tok : Token) :
    scanCommentTok (p0 :: rest) ty tok = scanCommentTok [p0] ty tok := by
  unfold scanCommentTok
  cases tok.file.get? tok.pos <;> rfl

/-! ### Claim C3 -/

/-- Claim C3, evaluation at the failing input: `ScanKeyword` configured with
keyword `"FOR"` on buffer `"BAZ"` at position 0 emits `Miss`, but the emitted
token carries `Value = "BAZ"` — it is not identical to the received empty
token, contradicting the claim (and the `Miss` port's own documentation,
`scanners.go` line 20: "the unmodified empty token"). `tok.Value` is
assigned the extracted bytes before the comparison and never reset on the
Miss paths. -/
theorem c3_keyword_miss_mutates :
    scanKeywordProcessTok [70, 79, 82] "KW" ⟨[66, 65, 90], 0, [], ""⟩
      = some (.miss ⟨[66, 65, 90], 0, [66, 65, 90], ""⟩)
    ∧ (⟨[66, 65, 90], 0, [66, 65, 90], ""⟩ : Token) ≠ ⟨[66, 65, 90], 0, [], ""⟩ := by
  decide

/-! ### Claim C7 -/

/-- Claim C7 (confirmed): for a comment-prefix configuration whose first
character is `p0` and a token whose position is inside the buffer, if the
byte at the position differs from `p0` the token is emitted unchanged on
`Miss`; if it equals `p0` the matcher always emits `Hit`, the value being
the run from the position up to (excluding) the first zero sentinel, line
feed or carriage return (or the end of the buffer), and the type being the
configured label. -/
theorem c7_comment_semantics (p0 : Nat) (rest : List Nat) (ty : String) (tok : Token)
    (h : tok.pos < tok.file.length) :
    scanCommentTok (p0 :: rest) ty tok = some (
      if tok.file.getD tok.pos 0 = p0 then
        MatchResult.hit { tok with
          value := (tok.file.drop tok.pos).takeWhile
            (fun c => !(c == 0) && !(c == 10) && !(c == 13)),
          type := ty }
      else MatchResult.miss tok) := by
  have hg : tok.file[tok.pos]? = some tok.file[tok.pos] :=
    List.getElem?_eq_getElem h
  by_cases hb : tok.file[tok.pos] = p0
  · simp [scanCommentTok, hg, hb, commentRun_eq_takeWhile]
  · simp [scanCommentTok, hg, hb, commentRun_eq_takeWhile]

/-- Witness for `c7_comment_semantics`: prefix `"#"` on buffer
`"#h\nx"` at position 0 hits with value `"#h"`. -/
theorem c7_comment_semantics_witness :
    (0 : Nat) < ([35, 104, 10, 120] : List Nat).length ∧
    scanCommentTok [35] "C" ⟨[35, 104, 10, 120], 0, [], ""⟩ = some (
      if ([35, 104, 10, 120] : List Nat).getD 0 0 = 35 then
        MatchResult.hit { (⟨[35, 104, 10, 120], 0, [], ""⟩ : Token) with
          value := (([35, 104, 10, 120] : List Nat).drop 0).takeWhile
            (fun c => !(c == 0) && !(c == 10) && !(c == 13)),
          type := "C" }
      else MatchResult.miss ⟨[35, 104, 10, 120], 0, [], ""⟩) :=
  ⟨by decide, c7_comment_semantics 35 [] "C" ⟨[35, 104, 10, 120], 0, [], ""⟩ (by decide)⟩

/-! ### Claim C8 -/

/-- Claim C8 (confirmed): when the configuration is bracket-delimited (first
byte `[`, last byte `]`) and the regexp compilation step reports failure,
`ScanChars` degrades to the always-false predicate, so every token at every
position is emitted on `Miss` — deterministically and without aborting
(the result is `some`, not a panic). The compiler enters as the abstract
parameter `compile`; `compile set = none` is the failure branch of
`regexp.Compile` in `ScanChars.matcher`. -/
theorem c8_bad_class_always_miss (compile : List Nat → Option (Nat → Bool))
    (set : List Nat) (ty : String) (tok : Token)
    (h1 : set.headD 0 = 91) (h2 : set.getLastD 0 = 93) (h3 : compile set = none) :
    scanCharsProcessTok compile set ty tok = some (.miss { tok with value := [] }) := by
  cases set with
  | nil => simp [List.headD] at h1
  | cons c rest =>
    have hc : c = 91 := by simpa using h1
    subst hc
    simp only [scanCharsProcessTok, scanCharsMatcher, h2, h3]
    simp [scanCharsTok, charsRun_false]

/-- Witness for `c8_bad_class_always_miss`: the malformed class `"[]"` with a
compiler that rejects it misses on a token over buffer `"a"`. -/
theorem c8_bad_class_always_miss_witness :
    (([91, 93] : List Nat).headD 0 = 91 ∧ ([91, 93] : List Nat).getLastD 0 = 93
      ∧ (fun (_ : List Nat) => (none : Option (Nat → Bool))) [91, 93] = none) ∧
    scanCharsProcessTok (fun _ => none) [91, 93] "T" ⟨[97], 0, [], ""⟩
      = some (.miss ⟨[97], 0, [], ""⟩) :=
  ⟨⟨by decide, by decide, rfl⟩,
    c8_bad_class_always_miss (fun _ => none) [91, 93] "T" ⟨[97], 0, [], ""⟩
      (by decide) (by decide) rfl⟩

/-! ### Claim C10 -/

/-- Claim C10 (confirmed): `ScanComment` only ever inspects the first byte of
its configured prefix string: with any non-empty prefix `p0 :: rest` the
whole streaming phase behaves identically to the one configured with just
`[p0]` — outcome, emitted value and type included. -/
theorem c10_comment_head_only (p0 : Nat) (rest : List Nat) (tyO : Option String)
    (ins : List Token) :
    scanCommentProcess (some (p0 :: rest)) tyO ins
      = scanCommentProcess (some [p0]) tyO ins := by
  cases tyO with
  | none => rfl
  | some ty =>
    simp only [scanCommentProcess]
    induction ins with
    | nil => rfl
    | cons t ts ih => simp only [List.mapM_cons, scanCommentTok_head, ih]

/-! ### Claim C9 -/

/-- Claim C9, counterexample: `ScanChars` whose `Set` configuration arrives
as the empty string and whose `Type` channel is closed does not return
silently: `s.matcher(set)` evaluates `set[0]` before `Type` is read and
panics (`none`), so the claim's promised silent shutdown (`some []`) fails. -/
theorem c9_counterexample :
    scanCharsProcess (fun _ => none) (some []) none [] ≠ some [] := by decide

/-- Claim C9 as amended: if either configuration channel is closed before a
value arrives, each matcher returns without processing or emitting anything
— unconditionally for `ScanKeyword` and `ScanComment`, and for `ScanChars`
provided that the `Set` value, when it did arrive, is non-empty. -/
theorem c9_missing_config (compile : List Nat → Option (Nat → Bool))
    (setO : Option (List Nat)) (tyO : Option String) (ins : List Token)
    (h : setO = none ∨ tyO = none) :
    scanKeywordProcess setO tyO ins = some []
    ∧ scanCommentProcess setO tyO ins = some []
    ∧ ((∀ s, setO = some s → s ≠ []) → scanCharsProcess compile setO tyO ins = some []) := by
  rcases h with h | h
  · subst h
    exact ⟨rfl, rfl, fun _ => rfl⟩
  · subst h
    refine ⟨?_, ?_, ?_⟩
    · cases setO <;> rfl
    · cases setO <;> rfl
    · intro hs
      cases setO with
      | none => rfl
      | some s =>
        cases s with
        | nil => exact absurd rfl (hs [] rfl)
        | cons c r =>
          obtain ⟨m, hm⟩ : ∃ m, scanCharsMatcher compile (c :: r) = some m := by
            simp only [scanCharsMatcher]
            split <;> exact ⟨_, rfl⟩
          simp [scanCharsProcess, hm]

/-- Witness for `c9_missing_config`: both configuration channels closed. -/
theorem c9_missing_config_witness :
    ((none : Option (List Nat)) = none ∨ (none : Option String) = none) ∧
    (scanKeywordProcess none none [] = some []
      ∧ scanCommentProcess none none [] = some []
      ∧ ((∀ s, (none : Option (List Nat)) = some s → s ≠ []) →
          scanCharsProcess (fun _ => none) none none [] = some [])) :=
  ⟨Or.inl rfl, c9_missing_config (fun _ => none) none none [] (Or.inl rfl)⟩

/-! ### Claim C4 -/

/-- Claim C4, counterexample: `ScanComment` with the perfectly ordinary
prefix `"#"` panics on a token whose position equals the buffer length
(position 0 on the empty buffer — allowed by the spec's invariant
`0 ≤ position ≤ len(buffer)`): `tok.File.Data[tok.Pos]` is evaluated
without a bounds check. -/
theorem c4_counterexample :
    scanCommentTok [35] "C" ⟨[], 0, [], ""⟩ = none := by decide

/-- Claim C4 as amended: with a non-empty configuration string, `ScanChars`
and `ScanKeyword` never panic for any position `0 ≤ p ≤ len(buffer)`
(indeed out of range positions just miss), while `ScanComment` additionally
requires `p < len(buffer)` because it dereferences `Data[p]` unconditionally. -/
theorem c4_no_panic (compile : List Nat → Option (Nat → Bool)) (set : List Nat)
    (ty : String) (tok : Token) (hset : set ≠ []) (hpos : tok.pos ≤ tok.file.length) :
    scanCharsProcessTok compile set ty tok ≠ none
    ∧ scanKeywordProcessTok set ty tok ≠ none
    ∧ (tok.pos < tok.file.length → scanCommentTok set ty tok ≠ none) := by
  refine ⟨?_, ?_, ?_⟩
  · cases set with
    | nil => exact absurd rfl hset
    | cons c rest =>
      simp only [scanCharsProcessTok, scanCharsMatcher]
      split <;> simp
  · unfold scanKeywordProcessTok scanKeywordTok
    split
    · simp
    · dsimp only
      split
      · split
        · rename_i hmatch hlt
          rw [List.get?_eq_get hlt]
          dsimp only
          split <;> simp
        · simp
      · simp
  · intro hlt
    unfold scanCommentTok
    rw [List.get?_eq_get hlt]
    cases set with
    | nil => exact absurd rfl hset
    | cons p0 r =>
      dsimp only
      split <;> simp

/-- Witness for `c4_no_panic`: configuration `"#"`, buffer `"a"`, position 0. -/
theorem c4_no_panic_witness :
    (([35] : List Nat) ≠ [] ∧ (0 : Nat) ≤ ([97] : List Nat).length) ∧
    (scanCharsProcessTok (fun _ => none) [35] "C" ⟨[97], 0, [], ""⟩ ≠ none
      ∧ scanKeywordProcessTok [35] "C" ⟨[97], 0, [], ""⟩ ≠ none
      ∧ ((0 : Nat) < ([97] : List Nat).length →
          scanCommentTok [35] "C" ⟨[97], 0, [], ""⟩ ≠ none)) :=
  ⟨⟨by decide, by decide⟩,
    c4_no_panic (fun _ => none) [35] "C" ⟨[97], 0, [], ""⟩ (by decide) (by decide)⟩

/-! ### Claim C5 -/

/-- Claim C5, counterexample: the mixed keyword `"A="` does not consist
solely of word characters, so the claim classifies it as operator-like; the
code's classification `identReg.MatchString(word)` asks only whether the
keyword CONTAINS a word character, classifies `"A="` as word-like, and
consequently hits on buffer `"A=="` (the word-boundary rule accepts the
following `=`), where the operator rule would have missed. -/
theorem c5_counterexample :
    keywordIsIdent (upperList [65, 61]) = true
    ∧ specWordLike [65, 61] = false
    ∧ scanKeywordProcessTok [65, 61] "OP" ⟨[65, 61, 61], 0, [], ""⟩
        = some (.hit ⟨[65, 61, 61], 0, [65, 61], "OP"⟩) := by decide

/-- Claim C5 as amended: `ScanKeyword` classifies the keyword as word-like
(applying the word-boundary rule) if and only if the keyword contains at
least one word character (letter, digit, underscore); only a keyword with
no word character at all is treated as operator-like. (Classification is
performed on the upper-cased keyword, which does not change word-char
membership.) -/
theorem c5_keyword_classification (K : List Nat) :
    keywordIsIdent (upperList K) = true ↔ ∃ c ∈ K, isWordChar c = true := by
  unfold keywordIsIdent
  rw [any_upperList]
  exact List.any_eq_true

/-! ### Claim C1 -/

/-- Claim C1, counterexample: keyword `"A="`, buffer `"A=+"`, position 0.
The claim (with the spec's classification of `"A="` as operator-like, since
`=` is not a word character) requires a Miss: the following byte `+` is a
non-word, non-space character. The code classifies `"A="` as word-like
(it contains the word character `A`), applies the word rule, accepts `+`,
and emits Hit. -/
theorem c1_counterexample :
    specKeywordHit [65, 61] [65, 61, 43] 0 = false
    ∧ scanKeywordProcessTok [65, 61] "OP" ⟨[65, 61, 43], 0, [], ""⟩
        = some (.hit ⟨[65, 61, 43], 0, [65, 61], "OP"⟩) := by decide

/-- Claim C1 as amended: the full case analysis of `ScanKeyword` on one
token, with "word-like" meaning the code's classification (`keywordIsIdent`:
the keyword contains at least one word character) instead of the spec's
"consists solely of word characters": Miss when fewer than `len(K)` bytes
remain; Hit with value the upper-cased keyword and the configured type when
the extracted bytes case-insensitively equal K and the following byte
(when one exists) passes the boundary rule; Miss otherwise. -/
theorem c1_keyword_semantics (K : List Nat) (label : String) (tok : Token) :
    scanKeywordProcessTok K label tok = some (
      if tok.pos + K.length ≤ tok.file.length then
        if upperList ((tok.file.drop tok.pos).take K.length) == upperList K
            && boundaryOkB (keywordIsIdent K) tok.file (tok.pos + K.length) then
          MatchResult.hit { tok with value := upperList K, type := label }
        else MatchResult.miss { tok with value := (tok.file.drop tok.pos).take K.length }
      else MatchResult.miss tok) := by
  unfold scanKeywordProcessTok scanKeywordTok
  by_cases hshort : tok.pos + K.length ≤ tok.file.length
  · rw [if_neg (by rw [upperList_length]; omega), if_pos hshort]
    rw [upperList_length]
    dsimp only
    by_cases hmatch : (upperList ((tok.file.drop tok.pos).take K.length) == upperList K) = true
    · rw [if_pos hmatch]
      by_cases hnext : tok.pos + K.length < tok.file.length
      · rw [if_pos hnext, List.get?_eq_get hnext]
        dsimp only
        rw [keywordFollow_eq]
        have hbnd : boundaryOkB (keywordIsIdent K) tok.file (tok.pos + K.length)
            = specFollowOk (keywordIsIdent K) tok.file[tok.pos + K.length] := by
          unfold boundaryOkB
          rw [List.get?_eq_get hnext]
          rfl
        rw [hbnd]
        by_cases hf : specFollowOk (keywordIsIdent K) tok.file[tok.pos + K.length] = true
        · simp [hmatch, hf]
        · have hf' := eq_false_of_ne_true hf
          simp [hmatch, hf']
      · rw [if_neg hnext]
        have hbnd : boundaryOkB (keywordIsIdent K) tok.file (tok.pos + K.length) = true := by
          unfold boundaryOkB
          rw [List.get?_eq_none.mpr (by omega)]
        simp [hmatch, hbnd]
    · rw [if_neg hmatch]
      have hm' := eq_false_of_ne_true hmatch
      simp [hm']
  · rw [if_pos (by rw [upperList_length]; omega), if_neg hshort]

/-! ### Claim C2 -/

/-- Claim C2, counterexample: the literal set configuration may contain the
zero byte itself (here the two-byte set `{a, NUL}`). On buffer `a NUL a`
at position 0, the claim's maximal prefix over the set is the whole buffer
`[97, 0, 97]`, but the scan loop of `ScanChars` breaks at the zero byte
before consulting the set, so the code hits with value `"a"` only. -/
theorem c2_counterexample :
    scanCharsProcessTok (fun _ => none) [97, 0] "T" ⟨[97, 0, 97], 0, [], ""⟩
      = some (.hit ⟨[97, 0, 97], 0, [97], "T"⟩)
    ∧ specMaxRun (expandSet [97, 0]) [97, 0, 97] 0 = [97, 0, 97]
    ∧ ([97] : List Nat) ≠ [97, 0, 97] := by decide

/-- Claim C2 as amended: for a non-empty, non-bracket-delimited set
configuration, `ScanChars` emits Hit with value the maximal prefix of
`B[p:]` consisting only of characters of the expanded set, additionally
truncated at the first zero sentinel byte (and the configured type), when
that prefix is non-empty; it emits Miss when it is empty. -/
theorem c2_chars_literal (compile : List Nat → Option (Nat → Bool)) (set : List Nat)
    (ty : String) (tok : Token) (hne : set ≠ [])
    (hlit : ¬(set.headD 0 = 91 ∧ set.getLastD 0 = 93)) :
    scanCharsProcessTok compile set ty tok = some (
      let run := (tok.file.drop tok.pos).takeWhile
        (fun c => !(c == 0) && (expandSet set).contains c)
      if 0 < run.length then MatchResult.hit { tok with value := run, type := ty }
      else MatchResult.miss { tok with value := run }) := by
  cases set with
  | nil => exact absurd rfl hne
  | cons c rest =>
    have hcond : ¬((c == 91 && (c :: rest).getLastD 0 == 93) = true) := by
      simp only [Bool.and_eq_true, beq_iff_eq]
      rintro ⟨hh, hl⟩
      exact hlit ⟨by simp [List.headD, hh], hl⟩
    have hmat : scanCharsMatcher compile (c :: rest)
        = some (fun r => (expandSet (c :: rest)).contains r) := by
      simp only [scanCharsMatcher, if_neg hcond]
    simp only [scanCharsProcessTok, hmat, Option.map_some']
    simp only [scanCharsTok, charsRun_eq_takeWhile]

/-- Witness for `c2_chars_literal`: literal set `"ab"` on buffer `"aac"`. -/
theorem c2_chars_literal_witness :
    (([97, 98] : List Nat) ≠ []
      ∧ ¬(([97, 98] : List Nat).headD 0 = 91 ∧ ([97, 98] : List Nat).getLastD 0 = 93)) ∧
    scanCharsProcessTok (fun _ => none) [97, 98] "T" ⟨[97, 97, 99], 0, [], ""⟩ = some (
      let run := (([97, 97, 99] : List Nat).drop 0).takeWhile
        (fun c => !(c == 0) && (expandSet [97, 98]).contains c)
      if 0 < run.length then
        MatchResult.hit { (⟨[97, 97, 99], 0, [], ""⟩ : Token) with value := run, type := "T" }
      else MatchResult.miss { (⟨[97, 97, 99], 0, [], ""⟩ : Token) with value := run }) :=
  ⟨⟨by decide, by decide⟩,
    c2_chars_literal (fun _ => none) [97, 98] "T" ⟨[97, 97, 99], 0, [], ""⟩
      (by decide) (by decide)⟩

/-! ### Claim C6 -/

/-- Claim C6, counterexample: `ScanKeyword` does not bound its scan at the
sentinel. With the operator keyword `"=="` at position 0, buffer
`== NUL x` misses — the boundary check reads the zero sentinel, and
`[^\w\s]` matches the zero byte — while the buffer truncated at the first
zero byte (`==`) hits. The byte at the sentinel thus flips the match
decision, so the outcome incorporates bytes at/beyond the first zero. -/
theorem c6_counterexample :
    (scanKeywordProcessTok [61, 61] "OP" ⟨[61, 61, 0, 120], 0, [], ""⟩).map obs
      ≠ (scanKeywordProcessTok [61, 61] "OP" ⟨[61, 61], 0, [], ""⟩).map obs := by decide

/-- Claim C6 as amended: `ScanChars` and `ScanComment` do bound their scans
at the zero sentinel — for a scan starting at or before the first zero
byte, the port taken and the emitted position, value and type are
independent of everything stored beyond that zero byte. (`ScanKeyword` is
dropped from the claim: its extraction and boundary check read through
zeros, see the counterexample.) -/
theorem c6_sentinel_bound (m : Nat → Bool) (pfx : List Nat) (ty : String)
    (a b₁ b₂ v : List Nat) (p : Nat) (t : String) (hp : p ≤ a.length) :
    obs (scanCharsTok m ty ⟨a ++ 0 :: b₁, p, v, t⟩)
      = obs (scanCharsTok m ty ⟨a ++ 0 :: b₂, p, v, t⟩)
    ∧ (scanCommentTok pfx ty ⟨a ++ 0 :: b₁, p, v, t⟩).map obs
        = (scanCommentTok pfx ty ⟨a ++ 0 :: b₂, p, v, t⟩).map obs := by
  have e₁ : (a ++ 0 :: b₁).drop p = a.drop p ++ 0 :: b₁ :=
    List.drop_append_of_le_length hp
  have e₂ : (a ++ 0 :: b₂).drop p = a.drop p ++ 0 :: b₂ :=
    List.drop_append_of_le_length hp
  constructor
  · have hrun : charsRun m ((a ++ 0 :: b₁).drop p)
        = charsRun m ((a ++ 0 :: b₂).drop p) := by
      rw [e₁, e₂]
      exact charsRun_zero_ext m (a.drop p) b₁ b₂
    simp only [scanCharsTok, hrun]
    split <;> rfl
  · have hrun : commentRun ((a ++ 0 :: b₁).drop p)
        = commentRun ((a ++ 0 :: b₂).drop p) := by
      rw [e₁, e₂]
      exact commentRun_zero_ext (a.drop p) b₁ b₂
    have hg : (a ++ 0 :: b₁).get? p = (a ++ 0 :: b₂).get? p :=
      get?_append_zero_ext a b₁ b₂ p hp
    simp only [scanCommentTok, hrun, hg]
    cases (a ++ 0 :: b₂).get? p with
    | none => rfl
    | some byte =>
      cases pfx with
      | nil => rfl
      | cons p0 ps =>
        dsimp only
        split <;> rfl

/-- Witness for `c6_sentinel_bound`: scan start 1 inside `a = "x?"`,
continuations `"A"` and `"BB"` beyond the sentinel. -/
theorem c6_sentinel_bound_witness :
    (1 : Nat) ≤ ([120, 63] : List Nat).length ∧
    (obs (scanCharsTok (fun c => c == 63) "C" ⟨[120, 63] ++ 0 :: [65], 1, [], ""⟩)
        = obs (scanCharsTok (fun c => c == 63) "C" ⟨[120, 63] ++ 0 :: [66, 66], 1, [], ""⟩)
      ∧ (scanCommentTok [63] "C" ⟨[120, 63] ++ 0 :: [65], 1, [], ""⟩).map obs
          = (scanCommentTok [63] "C" ⟨[120, 63] ++ 0 :: [66, 66], 1, [], ""⟩).map obs) :=
  ⟨by decide,
    c6_sentinel_bound (fun c => c == 63) [63] "C" [120, 63] [65] [66, 66] [] 1 ""
      (by decide)⟩

end GoFlow
